import Mathlib

/-
Verification of the session state aggregator of the economic-analysis agent
(src/agent_graph.py, class EconomicAnalysisAgent).

The embedding mirrors `_process_result`, `_format_results` and `analyze_sync`:

* A message is either an AI message carrying a list of tool calls, or any
  other message (human / tool / system); every message carries a `content`
  payload, since the cache-scanning loop in `_process_result` reads
  `next_msg.content` of every subsequent message.
* `json.loads` on a payload either returns a JSON object (modelled as an
  association list of string pairs, the shape every tool result takes) or
  raises; `PyContent.raw` stands for content on which `json.loads` raises.
* `datetime.now()` is modelled by a `clock` counter inside the state that is
  read and incremented at exactly the points where the source calls it, so
  timestamps are naturals that strictly increase across calls.
* Python `dict` preserves insertion order and assignment to an existing key
  keeps its position: the file table and the data cache are association
  lists updated through `dictInsert`.
* Python truthiness of the string arguments (`if filename and content:`,
  `if series_id:`) is modelled explicitly: `none` and `some ""` are falsy.
-/

/-- Result of `json.loads` on a message's content: `obj` is content parsing
to a JSON object with the given key/value pairs, `raw` is content on which
the parse raises. -/
inductive PyContent where
  | obj (pairs : List (String × String))
  | raw (s : String)
deriving DecidableEq

/-- The tool calls `_process_result` dispatches on, with their arguments as
read via `tool_args.get(...)` (absent arguments are `none`). -/
inductive ToolCall where
  | write_todos (tasks : List String)
  | update_todo (todo_id : Option Int) (status : Option String) (notes : Option String)
  | write_file (filename : Option String) (fileContent : Option String)
  | fetch_fred_series (series_id : Option String)
  | calculate_statistics (series_id : Option String)
  | otherTool (toolName : String)
deriving DecidableEq

/-- A message of the agent result: an `AIMessage` with its `tool_calls`
list, or any other message kind. Every kind has a `content` attribute. -/
inductive Message where
  | ai (ct : PyContent) (tool_calls : List ToolCall)
  | other (ct : PyContent)
deriving DecidableEq

/-- The `content` attribute, present on every message kind. -/
def Message.content : Message → PyContent
  | .ai c _ => c
  | .other c => c

/-- `json.loads` at the embedding boundary: objects parse, raw text raises. -/
def jsonLoads : PyContent → Option (List (String × String))
  | .obj pairs => some pairs
  | .raw _ => none

/-- A todo dict as built by `_process_result`: creation writes `id`, `task`,
`status`, `created_at`; `completed_at` is added on completion.  `notes` is
carried for completeness of the data model (`state.py` declares it). -/
structure Todo where
  id : Nat
  task : String
  status : Option String
  created_at : Nat
  completed_at : Option Nat := none
  notes : Option String := none
deriving DecidableEq

/-- A file-table value as built by `_process_result` (`write_file` branch):
the dict literal written there has exactly the keys `content` and
`created_at`. -/
structure FileRec where
  content : String
  created_at : Nat
deriving DecidableEq

/-- The agent's `self.state` together with the modelled wall clock. -/
structure AgentState where
  todos : List Todo
  files : List (String × FileRec)
  data_cache : List (String × List (String × String))
  clock : Nat
deriving DecidableEq

/-- The state a fresh `EconomicAnalysisAgent` starts with. -/
def emptyState : AgentState :=
  { todos := [], files := [], data_cache := [], clock := 0 }

/-- Python dict assignment `d[k] = v` on an insertion-ordered dict: an
existing key keeps its position and gets the new value, a new key is
appended at the end. -/
def dictInsert {α : Type} (d : List (String × α)) (k : String) (v : α) :
    List (String × α) :=
  match d with
  | [] => [(k, v)]
  | p :: ps => if p.1 == k then (k, v) :: ps else p :: dictInsert ps k v

/-- Python dict read `d[k]` (first — and only — binding of the key). -/
def dictLookup {α : Type} (d : List (String × α)) (k : String) : Option α :=
  (d.find? (fun p => p.1 == k)).map Prod.snd

/-- One iteration of the `write_todos` loop: `todo_counter += 1` then append
a pending todo with `id = todo_counter` and `created_at = datetime.now()`. -/
def appendTodo (acc : AgentState × Nat) (task : String) : AgentState × Nat :=
  ({ acc.1 with
      todos := acc.1.todos ++
        [{ id := acc.2 + 1, task := task, status := some "pending",
           created_at := acc.1.clock }],
      clock := acc.1.clock + 1 }, acc.2 + 1)

/-- One iteration of the `update_todo` loop over the todo list: if the id
matches, set `status`; if the new status is `"completed"`, additionally
stamp `completed_at` with `datetime.now()` (unconditionally). The
accumulator carries the rebuilt list and the clock. -/
def updateStep (tid : Option Int) (status : Option String)
    (acc : List Todo × Nat) (todo : Todo) : List Todo × Nat :=
  if tid = some (todo.id : Int) then
    let t1 : Todo := { todo with status := status }
    if status = some "completed" then
      (acc.1 ++ [{ t1 with completed_at := some acc.2 }], acc.2 + 1)
    else (acc.1 ++ [t1], acc.2)
  else (acc.1 ++ [todo], acc.2)

/-- The scan for "the next ToolMessage" in the cache branch: walk the
messages after the tool call, try `json.loads` on each `content`; on the
first successful parse, cache the payload under the series id when it has
no `"error"` key, and stop either way; parse failures are skipped. -/
def scanCache (sid : String) : List Message → AgentState → AgentState
  | [], st => st
  | msg :: rest, st =>
      match jsonLoads msg.content with
      | some d =>
          if d.any (fun p => p.1 == "error") then st
          else { st with data_cache := dictInsert st.data_cache sid d }
      | none => scanCache sid rest st

/-- Dispatch of one tool call, mirroring the if/elif chain of
`_process_result`.  `messages` is the full message list (needed for
`messages.index(message)` in the cache branch), `m` the AI message the
call came from, and the accumulator is (state, todo_counter). -/
def processToolCall (messages : List Message) (m : Message)
    (acc : AgentState × Nat) : ToolCall → AgentState × Nat
  | .write_todos tasks => tasks.foldl appendTodo acc
  | .update_todo tid status _ =>
      let r := acc.1.todos.foldl (updateStep tid status) ([], acc.1.clock)
      ({ acc.1 with todos := r.1, clock := r.2 }, acc.2)
  | .write_file fname fcontent =>
      match fname, fcontent with
      | some f, some ct =>
          if f != "" && ct != "" then
            ({ acc.1 with
                files := dictInsert acc.1.files f
                  { content := ct, created_at := acc.1.clock },
                clock := acc.1.clock + 1 }, acc.2)
          else acc
      | _, _ => acc
  | .fetch_fred_series sid =>
      match sid with
      | some s =>
          if s != "" then
            (scanCache s (messages.drop (messages.indexOf m + 1)) acc.1, acc.2)
          else acc
      | none => acc
  | .calculate_statistics sid =>
      match sid with
      | some s =>
          if s != "" then
            (scanCache s (messages.drop (messages.indexOf m + 1)) acc.1, acc.2)
          else acc
      | none => acc
  | .otherTool _ => acc

/-- One iteration of the outer message loop: only AI messages with a
non-empty `tool_calls` list are processed. -/
def processMessage (messages : List Message) (acc : AgentState × Nat)
    (m : Message) : AgentState × Nat :=
  match m with
  | .ai _ tcs => if tcs.isEmpty then acc else tcs.foldl (processToolCall messages m) acc
  | .other _ => acc

/-- `_process_result`: initialise `todo_counter = len(self.state["todos"])`,
then fold every message's tool calls into the state. -/
def processResult (st : AgentState) (messages : List Message) : AgentState :=
  (messages.foldl (processMessage messages) (st, st.todos.length)).1

/-- Python `str.lower()` (ASCII case folding suffices for the file names
involved). -/
def pyLower (s : String) : String := String.mk (s.data.map Char.toLower)

/-- Checks that `needle` is a prefix of `hay` (character lists). -/
def prefChars : List Char → List Char → Bool
  | [], _ => true
  | _ :: _, [] => false
  | a :: as, b :: bs => a == b && prefChars as bs

/-- Checks that `needle` occurs as a contiguous substring of `hay`
(character lists), like Python's `needle in hay`. -/
def subChars (needle : List Char) : List Char → Bool
  | [] => prefChars needle []
  | b :: bs => prefChars needle (b :: bs) || subChars needle bs

/-- Python `needle in hay` on strings. -/
def strHasSub (needle hay : String) : Bool := subChars needle.toList hay.toList

/-- The report-selection loop of `_format_results`: the first file in
file-table order whose name contains `"report"` case-insensitively. -/
def findReport : List (String × FileRec) → Option String
  | [] => none
  | (f, fd) :: rest =>
      if strHasSub "report" (pyLower f) then some fd.content else findReport rest

/-- The final-response scan of `_format_results`: last AI message with no
tool calls; `none` stands for the initial empty string. -/
def finalResponse (messages : List Message) : Option PyContent :=
  (messages.reverse.find? (fun m =>
    match m with
    | .ai _ tcs => tcs.isEmpty
    | .other _ => false)).map Message.content

/-- Python `session_id or "default"`: `None` and the empty string are
falsy. -/
def orDefault : Option String → String
  | none => "default"
  | some s => if s == "" then "default" else s

/-- The dict returned by `analyze_sync` / `_format_results`: the success
dict carries no `error` key and the failure dict carries only `success`,
`error`, `session_id` and `query`; absent keys are `none` / empty. -/
structure ResultObj where
  success : Bool
  session_id : Option String
  query : String
  response : Option PyContent := none
  report : Option String := none
  completed_tasks : List Todo := []
  pending_tasks : List Todo := []
  error : Option String := none
  data_sources : List String := []
  files_created : List String := []
  total_messages : Nat := 0
deriving DecidableEq

/-- `_format_results`. -/
def formatResults (st : AgentState) (messages : List Message) (query : String)
    (session_id : Option String) : ResultObj :=
  { success := true
    session_id := some (orDefault session_id)
    query := query
    response := finalResponse messages
    report := findReport st.files
    completed_tasks := st.todos.filter (fun t => t.status == some "completed")
    pending_tasks := st.todos.filter (fun t => !(t.status == some "completed"))
    data_sources := st.data_cache.map Prod.fst
    files_created := st.files.map Prod.fst
    total_messages := messages.length }

/-- Outcome of `self.agent.invoke(...)`: either a result carrying the
message list, or a raised exception with its `str(e)` text. -/
inductive AgentOutcome where
  | ok (messages : List Message)
  | err (e : String)

/-- `analyze_sync`: on success, fold the messages into the state and format;
on an exception from the collaborator invocation, return the failure dict
built in the `except` block and leave the state untouched. -/
def analyzeSync (st : AgentState) (query : String) (session_id : Option String) :
    AgentOutcome → AgentState × ResultObj
  | .ok messages =>
      let st2 := processResult st messages
      (st2, formatResults st2 messages query session_id)
  | .err e =>
      (st, { success := false, error := some e,
             session_id := session_id, query := query })

/-
Claim C1 machinery: the batch of todos appended by `write_todos` calls.
-/

/-- The todos appended by one `write_todos` call entered with counter `c`
and clock `k`. -/
def mkBatch (c k : Nat) : List String → List Todo
  | [] => []
  | t :: ts =>
      { id := c + 1, task := t, status := some "pending", created_at := k } ::
        mkBatch (c + 1) (k + 1) ts

/-- One `write_todos` action: a single AI message carrying the call. -/
def msgOfBatch (b : List String) : Message := .ai (.raw "") [.write_todos b]

/-- An ActionLog consisting only of `write_todos` actions. -/
def writeTodosLog (batches : List (List String)) : List Message :=
  batches.map msgOfBatch

/-- The todos appended by a sequence of `write_todos` calls. -/
def mkBatches (c k : Nat) : List (List String) → List Todo
  | [] => []
  | b :: bs => mkBatch c k b ++ mkBatches (c + b.length) (k + b.length) bs

/-- The payload the cache branch ends up acting on: the first message after
the tool call whose content `json.loads` parses; `none` when no later
message parses. -/
def locatePayload : List Message → Option (List (String × String))
  | [] => none
  | msg :: rest =>
      match jsonLoads msg.content with
      | some d => some d
      | none => locatePayload rest

/-
Concrete inputs used by the counterexamples and witnesses below.
-/

/-- Claim C2 log: one task, completed twice in one ActionLog at distinct
fold timestamps. -/
def c2log : List Message :=
  [ .ai (.raw "") [.write_todos ["a"]],
    .ai (.raw "") [.update_todo (some 1) (some "completed") none],
    .ai (.raw "") [.update_todo (some 1) (some "completed") none] ]

/-- Concrete input for the witness of the amended claim C2: a task that is
already completed with `completed_at = 1`, to be completed again at
clock 5. -/
def c2task : Todo :=
  { id := 1, task := "a", status := some "completed", created_at := 0,
    completed_at := some 1 }

/-- Concrete state for the witness of the amended claim C2. -/
def c2state : AgentState :=
  { todos := [c2task], files := [], data_cache := [], clock := 5 }

/-- Claim C3 log: the same filename written twice with different content in
one fold. -/
def c3log : List Message :=
  [ .ai (.raw "") [.write_file (some "report_q1.md") (some "v1"),
                   .write_file (some "report_q1.md") (some "v2")] ]

/-- Concrete state for the witness of the amended claim C3: the file table
already holds "report_q1.md" created at clock 0. -/
def c3state : AgentState :=
  { todos := []
    files := [("report_q1.md", { content := "v1", created_at := 0 }),
              ("notes.md", { content := "n", created_at := 1 })]
    data_cache := []
    clock := 3 }

/-- Claim C4 log: a fetch whose result payload parses and carries an
`"error"` key. -/
def c4log : List Message :=
  [ .ai (.raw "") [.fetch_fred_series (some "GDP")],
    .other (.obj [("error", "bad request")]) ]

/-- Claim C4 batched log: two fetches in one AI message — fetch A then
fetch B — followed by A's successful result and then B's erroring
result. -/
def c4batchlog : List Message :=
  [ .ai (.raw "") [.fetch_fred_series (some "A"), .fetch_fred_series (some "B")],
    .other (.obj [("series_id", "A"), ("v", "1")]),
    .other (.obj [("error", "bad")]) ]

/-- Concrete prior state for claim C4: series B already holds a
successfully cached payload. -/
def c4state : AgentState :=
  { todos := [], files := [], data_cache := [("B", [("v", "0")])], clock := 0 }

/-- Claim C5 log: the fetch's own result (the message right after the call)
does not parse as JSON; a later message does. -/
def c5log : List Message :=
  [ .ai (.raw "") [.fetch_fred_series (some "X")],
    .other (.raw "Traceback: boom"),
    .other (.obj [("series_id", "X"), ("v", "1")]) ]

/-- Claim C6 log: three files written in one fold, two of whose names
contain "report" case-insensitively. -/
def c6log : List Message :=
  [ .ai (.raw "") [.write_file (some "notes.md") (some "N"),
                   .write_file (some "report_draft.md") (some "DRAFT"),
                   .write_file (some "Report_Final.md") (some "FINAL")] ]

/-- Claim C7 log: a task created, then updated with a notes argument. -/
def c7log : List Message :=
  [ .ai (.raw "") [.write_todos ["a"]],
    .ai (.raw "") [.update_todo (some 1) (some "in_progress") (some "my note")] ]

/-- Concrete state for the witness of claim C10: a table already holding
"a.md". -/
def c10state : AgentState :=
  { todos := [], files := [("a.md", { content := "old", created_at := 0 })],
    data_cache := [], clock := 4 }

theorem foldl_appendTodo (tasks : List String) : ∀ (st : AgentState) (c : Nat),
    tasks.foldl appendTodo (st, c)
      = ({ st with
            todos := st.todos ++ mkBatch c st.clock tasks,
            clock := st.clock + tasks.length }, c + tasks.length) := by
  induction tasks with
  | nil => intro st c; simp [mkBatch]
  | cons t ts ih =>
      intro st c
      simp only [List.foldl_cons, appendTodo]
      rw [ih]
      simp [mkBatch, List.append_assoc]
      omega

theorem foldl_writeTodosLog (batches : List (List String)) :
    ∀ (msgs : List Message) (st : AgentState) (c : Nat),
    (writeTodosLog batches).foldl (processMessage msgs) (st, c)
      = ({ st with
            todos := st.todos ++ mkBatches c st.clock batches,
            clock := st.clock + (batches.map List.length).sum },
         c + (batches.map List.length).sum) := by
  induction batches with
  | nil => intro msgs st c; simp [writeTodosLog, mkBatches]
  | cons b bs ih =>
      intro msgs st c
      have hcons : writeTodosLog (b :: bs) = msgOfBatch b :: writeTodosLog bs := rfl
      have h1 : processMessage msgs (st, c) (msgOfBatch b)
          = ({ st with
                todos := st.todos ++ mkBatch c st.clock b,
                clock := st.clock + b.length }, c + b.length) := by
        simp [processMessage, msgOfBatch, processToolCall, foldl_appendTodo]
      rw [hcons, List.foldl_cons, h1, ih]
      simp [mkBatches, List.append_assoc]
      omega

theorem mkBatch_map_id (b : List String) : ∀ c k,
    (mkBatch c k b).map Todo.id = List.range' (c + 1) b.length := by
  induction b with
  | nil => intro c k; simp [mkBatch]
  | cons t ts ih => intro c k; simp [mkBatch, List.range'_succ, ih]

theorem mkBatch_map_task (b : List String) : ∀ c k,
    (mkBatch c k b).map Todo.task = b := by
  induction b with
  | nil => intro c k; simp [mkBatch]
  | cons t ts ih => intro c k; simp [mkBatch, ih]

theorem mkBatches_map_id (bs : List (List String)) : ∀ c k,
    (mkBatches c k bs).map Todo.id
      = List.range' (c + 1) ((bs.map List.length).sum) := by
  induction bs with
  | nil => intro c k; simp [mkBatches]
  | cons b t ih =>
      intro c k
      simp only [mkBatches, List.map_append, mkBatch_map_id, ih,
        List.map_cons, List.sum_cons]
      rw [show c + b.length + 1 = c + 1 + b.length by omega,
        List.range'_append_1]
      congr 1
      omega

theorem mkBatches_map_task (bs : List (List String)) : ∀ c k,
    (mkBatches c k bs).map Todo.task = bs.flatten := by
  induction bs with
  | nil => intro c k; simp [mkBatches]
  | cons b t ih =>
      intro c k
      simp [mkBatches, mkBatch_map_task, ih]

/-- Claim C1: folding any sequence of `write_todos` actions into the
initially empty snapshot assigns task ids 1, 2, 3, … — strictly increasing
consecutive integers starting at 1 with no gaps or repeats — and the tasks
appear in the order given by concatenating the batches, each batch
continuing right after the previous one. -/
theorem c1_todo_ids_consecutive (batches : List (List String)) :
    ((processResult emptyState (writeTodosLog batches)).todos.map Todo.id
        = List.range' 1 ((batches.map List.length).sum))
    ∧ ((processResult emptyState (writeTodosLog batches)).todos.map Todo.task
        = batches.flatten) := by
  unfold processResult
  rw [foldl_writeTodosLog]
  constructor
  · simpa [emptyState] using mkBatches_map_id batches 0 0
  · simpa [emptyState] using mkBatches_map_task batches 0 0

/-
Claim C2 machinery: the `update_todo` fold over the todo list.
-/

theorem updateStep_no_match (tid : Option Int) (status : Option String) :
    ∀ (todos acc1 : List Todo) (clk : Nat),
    (∀ u ∈ todos, tid ≠ some (u.id : Int)) →
    todos.foldl (updateStep tid status) (acc1, clk) = (acc1 ++ todos, clk) := by
  intro todos
  induction todos with
  | nil => intro acc1 clk _; simp
  | cons u us ih =>
      intro acc1 clk h
      have hu : ¬ tid = some ((u.id : Nat) : Int) := h u (by simp)
      simp only [List.foldl_cons, updateStep, if_neg hu]
      rw [ih (acc1 ++ [u]) clk (fun v hv => h v (by simp [hv]))]
      simp

theorem updateStep_append (tid : Option Int) (status : Option String)
    (a : List Todo) (k : Nat) (t : Todo) :
    updateStep tid status (a, k) t
      = (a ++ (updateStep tid status ([], k) t).1,
         (updateStep tid status ([], k) t).2) := by
  simp only [updateStep]
  by_cases h1 : tid = some ((t.id : Nat) : Int)
  · simp only [if_pos h1]
    by_cases h2 : status = some "completed" <;> simp [h2]
  · simp [h1]

theorem foldl_updateStep_fst (tid : Option Int) (status : Option String) :
    ∀ (todos acc1 : List Todo) (clk : Nat),
    (todos.foldl (updateStep tid status) (acc1, clk)).1
      = acc1 ++ (todos.foldl (updateStep tid status) ([], clk)).1 := by
  intro todos
  induction todos with
  | nil => intro acc1 clk; simp
  | cons u us ih =>
      intro acc1 clk
      simp only [List.foldl_cons]
      rw [updateStep_append tid status acc1 clk u,
          updateStep_append tid status [] clk u]
      simp only [List.nil_append]
      generalize (updateStep tid status ([], clk) u).1 = w
      generalize (updateStep tid status ([], clk) u).2 = k2
      rw [ih (acc1 ++ w) k2, ih w k2]
      simp [List.append_assoc]

/-- Claim C2 is false on the code: with two `update_todo(status=completed)`
actions against task 1 at distinct fold timestamps, the final
`completed_at` is the second action's timestamp, not the first's. -/
theorem c2_counterexample :
    ((processResult emptyState (c2log.take 2)).todos.map Todo.completed_at
        = [some 1])
    ∧ ((processResult emptyState c2log).todos.map Todo.completed_at = [some 2])
    ∧ some (2 : Nat) ≠ some 1 := by decide

/-- Claim C2 (amended): `completed_at` is overwritten by every completing
update — after processing an `update_todo` with status `completed` against
a present task id, that task's `completed_at` equals the fold timestamp of
THIS action, whatever value (including an earlier completion time) it held
before; so after a whole fold the last completing action in log order
wins. -/
theorem c2_completed_at_last_wins (msgs : List Message) (m : Message)
    (st : AgentState) (c : Nat) (n : Nat) (nt : Option String)
    (pre post : List Todo) (t : Todo)
    (hsplit : st.todos = pre ++ t :: post) (hid : t.id = n)
    (hpre : ∀ u ∈ pre, u.id ≠ n) :
    ∃ rest : List Todo,
      ((processToolCall msgs m (st, c)
          (.update_todo (some (n : Int)) (some "completed") nt)).1).todos
        = pre ++ { t with status := some "completed",
                          completed_at := some st.clock } :: rest := by
  refine ⟨(post.foldl (updateStep (some (n : Int)) (some "completed"))
      ([], st.clock + 1)).1, ?_⟩
  have hno : ∀ u ∈ pre, (some (n : Int)) ≠ some ((u.id : Nat) : Int) := by
    intro u hu heq
    have h1 : (n : Int) = (u.id : Int) := Option.some.inj heq
    have h2 : n = u.id := by exact_mod_cast h1
    exact hpre u hu h2.symm
  simp only [processToolCall]
  rw [hsplit, List.foldl_append,
    updateStep_no_match (some (n : Int)) (some "completed") pre [] st.clock hno]
  simp only [List.nil_append, List.foldl_cons]
  rw [show updateStep (some (n : Int)) (some "completed") (pre, st.clock) t
        = (pre ++ [{ t with status := some "completed",
                            completed_at := some st.clock }],
           st.clock + 1) from by simp [updateStep, hid]]
  rw [foldl_updateStep_fst]
  simp [List.append_assoc]

/-- Witness for the amended claim C2 at a concrete input: the already-set
`completed_at = 1` is replaced by the new fold timestamp 5. -/
theorem c2_completed_at_last_wins_witness :
    (c2state.todos = [] ++ c2task :: []) ∧ c2task.id = 1
    ∧ (∀ u ∈ ([] : List Todo), u.id ≠ 1)
    ∧ ∃ rest : List Todo,
        ((processToolCall [] (.other (.raw "")) (c2state, 0)
            (.update_todo (some (1 : Int)) (some "completed") none)).1).todos
          = [] ++ { c2task with
                      status := some "completed",
                      completed_at := some c2state.clock } :: rest :=
  ⟨rfl, rfl, by simp,
    c2_completed_at_last_wins [] (.other (.raw "")) c2state 0 1 none [] [] c2task
      rfl rfl (by simp)⟩

/-
Claim C3 machinery: properties of insertion-ordered dict assignment.
-/

theorem dictLookup_dictInsert {α : Type} :
    ∀ (d : List (String × α)) (k : String) (v : α),
    dictLookup (dictInsert d k v) k = some v := by
  intro d
  induction d with
  | nil =>
      intro k v
      simp [dictInsert, dictLookup]
  | cons p ps ih =>
      intro k v
      by_cases h : p.1 == k
      · simp [dictInsert, h, dictLookup]
      · simp only [dictInsert, h, Bool.false_eq_true, if_false, dictLookup]
        rw [List.find?_cons_of_neg (p := fun q : String × α => q.1 == k) _ h]
        exact ih k v

theorem dictInsert_keys {α : Type} :
    ∀ (d : List (String × α)) (k : String) (v : α),
    (dictInsert d k v).map Prod.fst
      = if d.any (fun p => p.1 == k) then d.map Prod.fst
        else d.map Prod.fst ++ [k] := by
  intro d
  induction d with
  | nil =>
      intro k v
      simp [dictInsert]
  | cons p ps ih =>
      intro k v
      by_cases h : p.1 == k
      · have hk : p.1 = k := by simpa using h
        simp [dictInsert, h, hk]
      · by_cases h2 : ps.any (fun p => p.1 == k)
        · simp [dictInsert, h, h2, ih]
        · simp [dictInsert, h, h2, ih]

/-- Claim C3 is false on the code: the first write creates the file with
`created_at = 0`, but the second write replaces the whole record, so after
both writes `created_at = 1` — the fold time of the SECOND write.
`created_at` from the first write is not preserved (and the record the
code writes has no `modified_at` field at all). -/
theorem c3_counterexample :
    (processResult emptyState
        [ .ai (.raw "") [.write_file (some "report_q1.md") (some "v1")] ]).files
      = [("report_q1.md", { content := "v1", created_at := 0 })]
    ∧ (processResult emptyState c3log).files
      = [("report_q1.md", { content := "v2", created_at := 1 })]
    ∧ (1 : Nat) ≠ 0 := by decide

/-- Claim C3 (amended): a `write_file` to an existing filename replaces the
file's whole record — `content` and `created_at` are both set from this
write (`created_at` is the fold time of the LATEST write, not of the first;
the record carries no `modified_at`) — while the filename keeps its
position in the table and no duplicate entry appears. -/
theorem c3_write_file_replaces (msgs : List Message) (m : Message)
    (st : AgentState) (c : Nat) (f ct : String)
    (hf : f ≠ "") (hc : ct ≠ "") :
    (((processToolCall msgs m (st, c) (.write_file (some f) (some ct))).1).files
        = dictInsert st.files f { content := ct, created_at := st.clock })
    ∧ dictLookup
        (((processToolCall msgs m (st, c)
            (.write_file (some f) (some ct))).1).files) f
        = some { content := ct, created_at := st.clock }
    ∧ ((((processToolCall msgs m (st, c)
            (.write_file (some f) (some ct))).1).files).map Prod.fst
        = if st.files.any (fun p => p.1 == f) then st.files.map Prod.fst
          else st.files.map Prod.fst ++ [f]) := by
  have hcond : (f != "" && ct != "") = true := by simp [hf, hc]
  refine ⟨?_, ?_, ?_⟩
  · simp [processToolCall, hcond]
  · simp [processToolCall, hcond, dictLookup_dictInsert]
  · simp [processToolCall, hcond, dictInsert_keys]

/-- Witness for the amended claim C3 at a concrete input: rewriting
"report_q1.md" at clock 3 replaces content and `created_at` and keeps the
key's position. -/
theorem c3_write_file_replaces_witness :
    ("report_q1.md" : String) ≠ ""
    ∧ ("v2" : String) ≠ ""
    ∧ ((((processToolCall [] (.other (.raw "")) (c3state, 0)
            (.write_file (some "report_q1.md") (some "v2"))).1).files
          = dictInsert c3state.files "report_q1.md"
              { content := "v2", created_at := c3state.clock })
        ∧ dictLookup
            (((processToolCall [] (.other (.raw "")) (c3state, 0)
                (.write_file (some "report_q1.md") (some "v2"))).1).files)
            "report_q1.md"
            = some { content := "v2", created_at := c3state.clock }
        ∧ ((((processToolCall [] (.other (.raw "")) (c3state, 0)
                (.write_file (some "report_q1.md") (some "v2"))).1).files).map Prod.fst
            = if c3state.files.any (fun p => p.1 == "report_q1.md") then
                c3state.files.map Prod.fst
              else c3state.files.map Prod.fst ++ ["report_q1.md"])) :=
  ⟨by decide, by decide,
    c3_write_file_replaces [] (.other (.raw "")) c3state 0 "report_q1.md" "v2"
      (by decide) (by decide)⟩

/-
Claims C4 and C5 machinery: the cache scan and the payload it locates.
-/

theorem scanCache_eq (s : String) :
    ∀ (rest : List Message) (st : AgentState),
    scanCache s rest st
      = match locatePayload rest with
        | none => st
        | some d =>
            if d.any (fun p => p.1 == "error") then st
            else { st with data_cache := dictInsert st.data_cache s d } := by
  intro rest
  induction rest with
  | nil => intro st; rfl
  | cons msg r ih =>
      intro st
      cases hj : jsonLoads msg.content with
      | some d => simp [scanCache, locatePayload, hj]
      | none => simp [scanCache, locatePayload, hj, ih]

/-- Claim C4 is false on the code: with two fetch calls batched in one AI
message — fetch A then fetch B, followed by A's successful result and then
B's erroring result — the scan for B's call starts right after the AI
message, hits A's parsable error-free result FIRST, and overwrites the
prior successful cache entry for B with A's payload, even though B's own
result payload parses and carries an `"error"` key. -/
theorem c4_counterexample :
    jsonLoads (Message.content (Message.other (.obj [("error", "bad")])))
        = some [("error", "bad")]
    ∧ ([("error", "bad")] : List (String × String)).any
        (fun p => p.1 == "error") = true
    ∧ dictLookup c4state.data_cache "B" = some [("v", "0")]
    ∧ dictLookup (processResult c4state c4batchlog).data_cache "B"
        = some [("series_id", "A"), ("v", "1")]
    ∧ some ([("series_id", "A"), ("v", "1")] : List (String × String))
        ≠ some [("v", "0")] :=
  ⟨rfl, by decide, by decide, by decide, by decide⟩

/-- Claim C4 (amended): the error guard applies to the payload the scan
LOCATES — the first message after the action's AI message whose content
parses as JSON — not necessarily to the action's own result: if that
located payload carries an `"error"` key, processing the call leaves the
data cache entirely unchanged (the entry for the series id stays what it
was, including absent if never set). When some other parsable payload —
such as a batched sibling call's successful result — precedes the action's
own erroring result, the entry for that series id can instead be
overwritten with that other payload (see the counterexample). -/
theorem c4_error_leaves_cache (msgs : List Message) (m : Message)
    (st : AgentState) (c : Nat) (sid : Option String)
    (d : List (String × String))
    (hloc : locatePayload (msgs.drop (msgs.indexOf m + 1)) = some d)
    (herr : d.any (fun p => p.1 == "error") = true) :
    (((processToolCall msgs m (st, c) (.fetch_fred_series sid)).1).data_cache
        = st.data_cache)
    ∧ (((processToolCall msgs m (st, c) (.calculate_statistics sid)).1).data_cache
        = st.data_cache) := by
  cases sid with
  | none => exact ⟨rfl, rfl⟩
  | some s =>
      by_cases hs : (s != "") = true
      · constructor <;> simp [processToolCall, hs, scanCache_eq, hloc, herr]
      · have hs' : (s != "") = false := by simpa using hs
        constructor <;> simp [processToolCall, hs']

/-- Witness for claim C4 at a concrete input. -/
theorem c4_error_leaves_cache_witness :
    locatePayload (c4log.drop
        (c4log.indexOf (Message.ai (.raw "") [.fetch_fred_series (some "GDP")]) + 1))
      = some [("error", "bad request")]
    ∧ ([("error", "bad request")] : List (String × String)).any
        (fun p => p.1 == "error") = true
    ∧ ((((processToolCall c4log (.ai (.raw "") [.fetch_fred_series (some "GDP")])
            (emptyState, 0) (.fetch_fred_series (some "GDP"))).1).data_cache
          = emptyState.data_cache)
       ∧ (((processToolCall c4log (.ai (.raw "") [.fetch_fred_series (some "GDP")])
            (emptyState, 0) (.calculate_statistics (some "GDP"))).1).data_cache
          = emptyState.data_cache)) :=
  ⟨by decide, by decide,
    c4_error_leaves_cache c4log (.ai (.raw "") [.fetch_fred_series (some "GDP")])
      emptyState 0 (some "GDP") [("error", "bad request")] (by decide) (by decide)⟩

/-- Claim C5 is false on the code: with an unparsable own result payload the
fold is NOT a cache no-op — it keeps scanning and caches the content of a
later message under the series id, so the entry changes from absent to that
other message's payload. -/
theorem c5_counterexample :
    jsonLoads (Message.content (.other (.raw "Traceback: boom"))) = none
    ∧ (processResult emptyState c5log).data_cache
        = [("X", [("series_id", "X"), ("v", "1")])]
    ∧ ([("X", [("series_id", "X"), ("v", "1")])]
        : List (String × List (String × String))) ≠ [] :=
  ⟨rfl, by decide, by decide⟩

/-- Claim C5 (amended): a message whose content fails to parse is SKIPPED
by the scan, which continues with later messages instead of stopping: the
cache after processing a `fetch_fred_series` call is determined by the
first subsequent message whose content parses — unchanged when none parses
or when that payload has an `"error"` key, otherwise upserted with that
payload, which may come from a message other than the call's own result.
The fold never raises either way. -/
theorem c5_scan_skips_unparsable (msgs : List Message) (m : Message)
    (st : AgentState) (c : Nat) (s : String) (hs : s ≠ "") :
    (∀ (x : Message) (r : List Message), jsonLoads x.content = none →
        locatePayload (x :: r) = locatePayload r)
    ∧ ((processToolCall msgs m (st, c) (.fetch_fred_series (some s))).1).data_cache
        = (match locatePayload (msgs.drop (msgs.indexOf m + 1)) with
           | none => st.data_cache
           | some d =>
               if d.any (fun p => p.1 == "error") then st.data_cache
               else dictInsert st.data_cache s d) := by
  constructor
  · intro x r hx
    simp [locatePayload, hx]
  · have hs' : (s != "") = true := by simpa using hs
    simp only [processToolCall, hs', if_true, scanCache_eq]
    cases hloc : locatePayload (msgs.drop (msgs.indexOf m + 1)) with
    | none => simp
    | some d => by_cases he : d.any (fun p => p.1 == "error") = true <;> simp [he]

/-- Witness for the amended claim C5 at the concrete log `c5log`. -/
theorem c5_scan_skips_unparsable_witness :
    ("X" : String) ≠ ""
    ∧ ((∀ (x : Message) (r : List Message), jsonLoads x.content = none →
          locatePayload (x :: r) = locatePayload r)
       ∧ ((processToolCall c5log (.ai (.raw "") [.fetch_fred_series (some "X")])
            (emptyState, 0) (.fetch_fred_series (some "X"))).1).data_cache
          = (match locatePayload (c5log.drop
                (c5log.indexOf (Message.ai (.raw "") [.fetch_fred_series (some "X")]) + 1)) with
             | none => emptyState.data_cache
             | some d =>
                 if d.any (fun p => p.1 == "error") then emptyState.data_cache
                 else dictInsert emptyState.data_cache "X" d)) :=
  ⟨by decide,
    c5_scan_skips_unparsable c5log (.ai (.raw "") [.fetch_fred_series (some "X")])
      emptyState 0 "X" (by decide)⟩

/-
Claim C6 machinery: report selection.
-/

theorem findReport_eq_find? :
    ∀ files : List (String × FileRec),
    findReport files
      = (files.find? (fun p => strHasSub "report" (pyLower p.1))).map
          (fun p => p.2.content) := by
  intro files
  induction files with
  | nil => rfl
  | cons p rest ih =>
      obtain ⟨f, fd⟩ := p
      by_cases h : strHasSub "report" (pyLower f) = true
      · simp [findReport, h]
      · have h' : strHasSub "report" (pyLower f) = false := by simpa using h
        simp [findReport, h', ih]

/-- Claim C6: the result's `report` field is the content of the FIRST file
in file-table insertion order whose name contains "report"
case-insensitively — and `none` when no name matches (the `find?` on the
right is exactly that rule); on the files notes.md, report_draft.md,
Report_Final.md written in that order it selects report_draft.md's content
even though a later name also matches. -/
theorem c6_report_first_match :
    (∀ (st : AgentState) (msgs : List Message) (q : String) (sid : Option String),
        (formatResults st msgs q sid).report
          = (st.files.find? (fun p => strHasSub "report" (pyLower p.1))).map
              (fun p => p.2.content))
    ∧ (formatResults (processResult emptyState c6log) [] "q" none).report
        = some "DRAFT"
    ∧ (processResult emptyState c6log).files.map Prod.fst
        = ["notes.md", "report_draft.md", "Report_Final.md"] := by
  refine ⟨?_, by decide, by decide⟩
  intro st msgs q sid
  simp [formatResults, findReport_eq_find?]

/-
Claim C7 machinery: the notes argument of `update_todo`.
-/

theorem foldl_updateStep_notes (tid : Option Int) (status : Option String) :
    ∀ (todos acc1 : List Todo) (clk : Nat),
    ((todos.foldl (updateStep tid status) (acc1, clk)).1).map Todo.notes
      = acc1.map Todo.notes ++ todos.map Todo.notes := by
  intro todos
  induction todos with
  | nil => intro acc1 clk; simp
  | cons u us ih =>
      intro acc1 clk
      simp only [List.foldl_cons, updateStep]
      by_cases h1 : tid = some ((u.id : Nat) : Int)
      · simp only [if_pos h1]
        by_cases h2 : status = some "completed"
        · simp only [if_pos h2]
          rw [ih]
          simp
        · simp only [if_neg h2]
          rw [ih]
          simp
      · simp only [if_neg h1]
        rw [ih]
        simp

/-- Claim C7 is false on the code: an `update_todo` carrying a notes value
against an existing task id leaves the task's `notes` field unset — the
supplied value is not written anywhere. -/
theorem c7_counterexample :
    (processResult emptyState c7log).todos.map Todo.notes = [none]
    ∧ ([none] : List (Option String)) ≠ [some "my note"] :=
  ⟨by decide, by decide⟩

/-- Claim C7 (amended): the fold ignores the `notes` argument of
`update_todo` entirely — processing is identical whatever notes value is
supplied, and no task's `notes` field is ever modified by the fold. -/
theorem c7_notes_ignored :
    (∀ (msgs : List Message) (m : Message) (st : AgentState) (c : Nat)
        (tid : Option Int) (status : Option String) (nt : Option String),
        processToolCall msgs m (st, c) (.update_todo tid status nt)
          = processToolCall msgs m (st, c) (.update_todo tid status none))
    ∧ (∀ (msgs : List Message) (m : Message) (st : AgentState) (c : Nat)
        (tid : Option Int) (status : Option String) (nt : Option String),
        ((processToolCall msgs m (st, c) (.update_todo tid status nt)).1).todos.map
            Todo.notes
          = st.todos.map Todo.notes) := by
  constructor
  · intro msgs m st c tid status nt
    rfl
  · intro msgs m st c tid status nt
    simp only [processToolCall]
    rw [foldl_updateStep_notes]
    simp

/-- Claim C8: when the collaborator invocation raises, `analyze_sync`
catches the exception and returns a failure dict with success = false, the
exception text as the error string, and the query and session id echoed;
the snapshot — todos, files, cache, clock — is exactly the state from
before the turn (no partial fold), and the call returns normally instead of
crashing. -/
theorem c8_failure_leaves_state (st : AgentState) (q : String)
    (sid : Option String) (e : String) :
    analyzeSync st q sid (.err e)
      = (st, { success := false, session_id := sid, query := q,
               error := some e }) := rfl

/-- Claim C9 is false on the code: on the failure path the session id is
passed through raw — with no session id supplied, the failure result
carries an absent session id, not the literal "default". -/
theorem c9_counterexample :
    (analyzeSync emptyState "q" none (.err "boom")).2.session_id = none
    ∧ (none : Option String) ≠ some "default" :=
  ⟨rfl, by decide⟩

/-- Claim C9 (amended): only SUCCESS results fall back to the literal
"default" (when the supplied session id is absent — or empty, by Python
truthiness); failure results echo the supplied session id unchanged, so it
is absent when none was supplied. -/
theorem c9_session_id_fallback :
    (∀ (st : AgentState) (msgs : List Message) (q : String) (sid : Option String),
        (analyzeSync st q sid (.ok msgs)).2.session_id = some (orDefault sid))
    ∧ (∀ (st : AgentState) (q : String) (sid : Option String) (e : String),
        (analyzeSync st q sid (.err e)).2.session_id = sid) :=
  ⟨fun _ _ _ _ => rfl, fun _ _ _ _ => rfl⟩

/-- Claim C10: a `write_file` whose content argument is the empty string —
or whose filename is empty or missing — is a complete no-op on the fold:
state and counter come back unchanged, so no file is created and no
existing file is overwritten. -/
theorem c10_empty_write_noop (msgs : List Message) (m : Message)
    (st : AgentState) (c : Nat) (fname fcontent : Option String)
    (h : fcontent = some "" ∨ fcontent = none
        ∨ fname = some "" ∨ fname = none) :
    processToolCall msgs m (st, c) (.write_file fname fcontent) = (st, c) := by
  rcases h with h | h | h | h
  · subst h
    cases fname with
    | none => rfl
    | some f => simp [processToolCall]
  · subst h
    cases fname with
    | none => rfl
    | some f => rfl
  · subst h
    cases fcontent with
    | none => rfl
    | some ct => simp [processToolCall]
  · subst h
    cases fcontent with
    | none => rfl
    | some ct => rfl

/-- Witness for claim C10 at a concrete input: writing empty content to the
existing file "a.md" changes nothing. -/
theorem c10_empty_write_noop_witness :
    ((some "" : Option String) = some "" ∨ (some "" : Option String) = none
      ∨ (some "a.md" : Option String) = some ""
      ∨ (some "a.md" : Option String) = none)
    ∧ processToolCall [] (.other (.raw "")) (c10state, 7)
        (.write_file (some "a.md") (some "")) = (c10state, 7) :=
  ⟨Or.inl rfl,
    c10_empty_write_noop [] (.other (.raw "")) c10state 7 (some "a.md") (some "")
      (Or.inl rfl)⟩
